import Mathlib

/-!
Verification of the pull-request file-search pipeline (`src/main.py`).

The program pages through a repository's pull requests, filters them by an
optional creation-date range (relying on the API's descending-by-creation-date
sort to stop early), dispatches per-pull-request changed-file checks to a
thread pool, and reports the URLs of pull requests that modified a target file
together with two counters.

The shallow embedding below models the HTTP layer as a list of prepared
responses, one per page: `fetch_pull_requests` / `fetch_pr_files` (both
instances of the same generator shape, `fetch_paged`) consume that list
exactly the way the Python `while True` loops consume successive pages.
Python `datetime` values are encoded by a lexicographic key on their fields
(`dtKey`), which orders exactly as Python's field-by-field comparison does
for in-range fields.
-/

namespace PRFileSearch

/-- An error raised on a non-200 response: `raise Exception(f'... {response.status_code}, {response.text}')`
carries the status code and the raw body (lines 129-130 and 151-152 of `main.py`). -/
structure FetchError where
  status : Nat
  body : String
  deriving Repr, DecidableEq

/-- One prepared HTTP response for one page of a paged resource: its status
code, raw body text, decoded JSON array (`response.json()`), and whether the
`Link` header contains a `rel="next"` entry (`'next' in response.links`). -/
structure ApiResponse (α : Type) where
  status : Nat
  body : String
  items : List α
  hasNext : Bool
  deriving Repr, DecidableEq

/-- A pull request as the code reads it: `pr['number']`, `pr['html_url']`,
and `pr['created_at']` already parsed to a comparable timestamp key. -/
structure PullRequest where
  number : Nat
  html_url : String
  created_at : Nat
  deriving Repr, DecidableEq

/-- A changed file as the code reads it: `file['filename']`. -/
structure ChangedFile where
  filename : String
  deriving Repr, DecidableEq

/-- The paged-generator shape shared verbatim by `fetch_pull_requests`
(lines 114-140) and `fetch_pr_files` (lines 142-162): request page `N`; on a
non-200 status raise a `FetchError` with status and body; on an empty JSON
array stop; otherwise yield every element, then request page `N+1` exactly
when the response carried a next link, else stop.  The result is the list of
yielded elements together with the error, if one was raised.  An empty input
list stands for the server answering an empty array. -/
def fetch_paged {α : Type} : List (ApiResponse α) → List α × Option FetchError
  | [] => ([], none)
  | r :: rest =>
    if r.status ≠ 200 then ([], some ⟨r.status, r.body⟩)
    else if r.items.isEmpty then ([], none)
    else if r.hasNext then
      let out := fetch_paged rest
      (r.items ++ out.1, out.2)
    else (r.items, none)

/-- `fetch_pull_requests` (lines 114-140) is `fetch_paged` at the
pull-request list resource. -/
def fetch_pull_requests : List (ApiResponse PullRequest) → List PullRequest × Option FetchError :=
  fetch_paged

/-- `fetch_pr_files` (lines 142-162) is `fetch_paged` at a pull request's
changed-file resource. -/
def fetch_pr_files : List (ApiResponse ChangedFile) → List ChangedFile × Option FetchError :=
  fetch_paged

/-- How many page requests the generator loop issues before stopping:
one for the page at hand, and one more round exactly when the page is a 200
with a non-empty array and a next link. -/
def pages_requested {α : Type} : List (ApiResponse α) → Nat
  | [] => 1
  | r :: rest =>
    if r.status ≠ 200 then 1
    else if r.items.isEmpty then 1
    else if r.hasNext then 1 + pages_requested rest
    else 1

/-- The concatenation of the items of every page, in page order. -/
def pagesItems {α : Type} : List (ApiResponse α) → List α
  | [] => []
  | r :: rest => r.items ++ pagesItems rest

/-- The shared mutable state initialized in `PullRequestAnalyzer.__init__`
(lines 27-31): the matched-URL list `pull_requests_with_file` and the two
counters `pull_requests_searched` and `files_searched`. -/
structure RunState where
  pull_requests_with_file : List String
  pull_requests_searched : Nat
  files_searched : Nat
  deriving Repr, DecidableEq

/-- The initial run state set by `__init__`. -/
def initState : RunState := ⟨[], 0, 0⟩

/-- The date-range filter inside the enumeration loop of
`process_pull_requests` (lines 169-185): with filtering on, a pull request
newer than `END_DATE` is skipped (`continue`), the first one older than
`START_DATE` stops the whole loop (`break`), and every other pull request is
dispatched for a file check.  Returns the dispatched pull requests in
enumeration order and whether the loop stopped with `break`. -/
def date_filter_stream (dateFiltering : Bool) (startDate endDate : Nat) :
    List PullRequest → List PullRequest × Bool
  | [] => ([], false)
  | pr :: rest =>
    if dateFiltering = true ∧ endDate < pr.created_at then
      date_filter_stream dateFiltering startDate endDate rest
    else if dateFiltering = true ∧ pr.created_at < startDate then ([], true)
    else
      let out := date_filter_stream dateFiltering startDate endDate rest
      (pr :: out.1, out.2)

/-- The pull requests the enumeration loop of `process_pull_requests`
actually examines: every element of the stream up to and including the first
one that triggers the `break` at line 179 (both the `continue` branch and the
dispatch branch examine their element and move on). -/
def examined_prs (dateFiltering : Bool) (startDate : Nat) :
    List PullRequest → List PullRequest
  | [] => []
  | pr :: rest =>
    if dateFiltering = true ∧ pr.created_at < startDate then [pr]
    else pr :: examined_prs dateFiltering startDate rest

/-- Scanning one page's filenames the way the loop body of `read_files`
(lines 197-201) does: each file examined increments `files_searched`, and the
scan stops at the first filename equal (by exact, case-sensitive string
equality) to the target.  Returns the number of files examined and whether a
match was found. -/
def scanFiles (target : String) : List ChangedFile → Nat × Bool
  | [] => (0, false)
  | f :: fs =>
    if f.filename = target then (1, true)
    else
      let out := scanFiles target fs
      (out.1 + 1, out.2)

/-- The observable outcome of one `read_files` invocation (lines 195-201):
how many files were examined (counter increments), whether the target file
matched (URL appended then `break`), the `FetchError` raised by
`fetch_pr_files` if the scan reached it, and how many file-page requests were
issued. -/
structure ReadOut where
  filesExamined : Nat
  matched : Bool
  error : Option FetchError
  requests : Nat
  deriving Repr, DecidableEq

/-- `read_files` driving the `fetch_pr_files` generator page by page over the
prepared responses: request a page (one request per recursion step); a
non-200 status raises before any of that page's files are yielded; an empty
page ends the generator; otherwise the yielded files are scanned one by one —
a match `break`s out, abandoning the generator so no further page is
requested; with no match the generator continues to the next page exactly
when a next link is present. -/
def read_files_run (target : String) : List (ApiResponse ChangedFile) → ReadOut
  | [] => ⟨0, false, none, 1⟩
  | r :: rest =>
    if r.status ≠ 200 then ⟨0, false, some ⟨r.status, r.body⟩, 1⟩
    else if r.items.isEmpty then ⟨0, false, none, 1⟩
    else
      let s := scanFiles target r.items
      if s.2 then ⟨s.1, true, none, 1⟩
      else if r.hasNext then
        let o := read_files_run target rest
        ⟨s.1 + o.filesExamined, o.matched, o.error, 1 + o.requests⟩
      else ⟨s.1, false, none, 1⟩

/-- The effect of one `read_files(pull_number, pull_url)` call on the shared
state: `files_searched` grows by the number of files examined, and on a match
`pull_url` is appended to `pull_requests_with_file` (lines 198-200).  The
raised error, if any, propagates to the future that ran the call. -/
def read_files (target : String) (pages : List (ApiResponse ChangedFile))
    (pull_url : String) (st : RunState) : RunState × Option FetchError :=
  let o := read_files_run target pages
  ({ st with
      files_searched := st.files_searched + o.filesExamined,
      pull_requests_with_file :=
        st.pull_requests_with_file ++ (if o.matched then [pull_url] else []) },
   o.error)

/-- The aggregate effect of dispatching one file check per retained pull
request and then collecting every future (lines 181-193): for each pull
request, `pull_requests_searched` is incremented at dispatch (line 183), its
`read_files` effects land in the shared state, and an exception raised inside
the future is caught and reported (lines 189-193) without stopping the rest.
Returns the final state and the reported errors in collection order. -/
def run_file_checks (target : String)
    (filesOf : Nat → List (ApiResponse ChangedFile)) :
    RunState → List PullRequest → RunState × List FetchError
  | st, [] => (st, [])
  | st, pr :: rest =>
    let st1 := { st with pull_requests_searched := st.pull_requests_searched + 1 }
    let out := read_files target (filesOf pr.number) pr.html_url st1
    let tail := run_file_checks target filesOf out.1 rest
    (tail.1, (out.2.toList) ++ tail.2)

/-- Everything `process_pull_requests` (lines 164-193) observably does, given
the prepared list-endpoint responses and, for each pull-request number, the
prepared file-endpoint responses: the final shared state, the future errors
printed by the collection loop, the fatal enumeration error (a `FetchError`
escaping `fetch_pull_requests`, which aborts the run), and the dispatched
pull requests.  A `break` by the date filter abandons the generator, so an
error a later page would have raised never occurs; when a fatal error does
occur, the futures already submitted still run to completion (the executor's
`with` block waits for them) but the collection loop is never reached, so no
future error is printed. -/
structure ProcessOut where
  state : RunState
  reported : List FetchError
  fatal : Option FetchError
  dispatched : List PullRequest
  deriving Repr, DecidableEq

/-- See `ProcessOut`. -/
def process_pull_requests (dateFiltering : Bool) (startDate endDate : Nat)
    (target : String) (filesOf : Nat → List (ApiResponse ChangedFile))
    (st0 : RunState) (resps : List (ApiResponse PullRequest)) : ProcessOut :=
  let fetched := fetch_pull_requests resps
  let filtered := date_filter_stream dateFiltering startDate endDate fetched.1
  let checked := run_file_checks target filesOf st0 filtered.1
  let fatal := if filtered.2 then none else fetched.2
  { state := checked.1,
    reported := if fatal.isSome then [] else checked.2,
    fatal := fatal,
    dispatched := filtered.1 }

/-- The lines `display_results` (lines 203-210) prints: a no-matches line
when `pull_requests_with_file` is empty, otherwise a header followed by every
matched URL in recorded order; in both cases a final summary line with the
two counters. -/
def display_results (target : String) (st : RunState) : List String :=
  (if st.pull_requests_with_file.isEmpty then
    ["No pull requests found that modified " ++ target]
  else
    ("Pull requests that modified " ++ target ++ ":") :: st.pull_requests_with_file)
  ++ ["Searched " ++ toString st.pull_requests_searched ++ " pull requests and "
      ++ toString st.files_searched ++ " files."]

/-- A Python `datetime` as the code builds it via `strptime`: the six fields
compared field-by-field, lexicographically, by Python's `datetime` ordering. -/
structure PyDateTime where
  year : Nat
  month : Nat
  day : Nat
  hour : Nat
  minute : Nat
  second : Nat
  deriving Repr, DecidableEq

/-- A key that orders `PyDateTime` values exactly as Python's lexicographic
field comparison does, for fields in their calendar ranges (month ≤ 12 < 13,
day ≤ 31 < 32, hour < 24, minute < 60, second < 60). -/
def dtKey (t : PyDateTime) : Nat :=
  ((((t.year * 13 + t.month) * 32 + t.day) * 24 + t.hour) * 60 + t.minute) * 60 + t.second

/-- Python's `%y` pivot: two-digit years 00-68 map to 2000-2068 and 69-99 to
1969-1999. -/
def year_from_two_digit (y : Nat) : Nat :=
  if y ≤ 68 then 2000 + y else 1900 + y

/-- `datetime.strptime(s, '%m-%d-%y')` on a valid `mm-dd-yy` string (line
96-102 of `main.py`): the named date at midnight — unspecified time fields
default to zero. -/
def strptime_mdy (m d y : Nat) : PyDateTime :=
  ⟨year_from_two_digit y, m, d, 0, 0, 0⟩

/-- `datetime.strptime(pr['created_at'], '%Y-%m-%dT%H:%M:%SZ')` (line 172):
all six fields are given. -/
def strptime_iso (yyyy m d h mi s : Nat) : PyDateTime :=
  ⟨yyyy, m, d, h, mi, s⟩

/-- Two `read_files` worker threads (submitted to the `ThreadPoolExecutor` at
line 185) about to execute the statement `self.files_searched += 1` at line
198 on the shared analyzer.  CPython runs that statement as a load of the
attribute followed by a store of the loaded value plus one, and the
interpreter may switch threads between the two bytecodes; the code takes no
lock (`__init__` creates plain attributes, lines 27-31).  Each worker has a
program counter (0 = about to load, 1 = about to store, 2 = done) and a
register holding the value it loaded. -/
structure RaceState where
  files_searched : Nat
  pcA : Nat
  localA : Nat
  pcB : Nat
  localB : Nat
  deriving Repr, DecidableEq

/-- One scheduler step: the chosen worker (`true` = A, `false` = B) executes
its next bytecode of `self.files_searched += 1`, if any. -/
def raceStep (tid : Bool) (s : RaceState) : RaceState :=
  if tid then
    if s.pcA = 0 then { s with localA := s.files_searched, pcA := 1 }
    else if s.pcA = 1 then { s with files_searched := s.localA + 1, pcA := 2 }
    else s
  else
    if s.pcB = 0 then { s with localB := s.files_searched, pcB := 1 }
    else if s.pcB = 1 then { s with files_searched := s.localB + 1, pcB := 2 }
    else s

/-- Run a thread schedule from a starting state. -/
def runSchedule (sched : List Bool) (s : RaceState) : RaceState :=
  sched.foldl (fun s t => raceStep t s) s

/-! ### Lemmas about the paged generator -/

theorem fetch_paged_terminal {α : Type} (good : List (ApiResponse α)) (last : ApiResponse α)
    (hg : ∀ r ∈ good, r.status = 200 ∧ r.items ≠ [] ∧ r.hasNext = true)
    (hl : last.status = 200) (ht : last.items = [] ∨ last.hasNext = false) :
    fetch_paged (good ++ [last]) = (pagesItems (good ++ [last]), none)
    ∧ pages_requested (good ++ [last]) = good.length + 1 := by
  induction good with
  | nil =>
    rcases ht with h | h
    · simp [fetch_paged, pages_requested, pagesItems, hl, h]
    · by_cases he : last.items = []
      · simp [fetch_paged, pages_requested, pagesItems, hl, he]
      · simp [fetch_paged, pages_requested, pagesItems, hl, h, he]
  | cons g gs ih =>
    obtain ⟨h200, hne, hnext⟩ := hg g (List.mem_cons_self _ _)
    have ih2 := ih (fun r hr => hg r (List.mem_cons_of_mem _ hr))
    simp [fetch_paged, pages_requested, pagesItems, h200, hne, hnext, ih2.1, ih2.2,
      List.isEmpty_iff]
    omega

theorem pages_requested_stop {α : Type} (r : ApiResponse α) (rest : List (ApiResponse α))
    (h : r.items = [] ∨ r.hasNext = false) : pages_requested (r :: rest) = 1 := by
  by_cases hs : r.status = 200
  · rcases h with h | h <;> simp [pages_requested, hs, h, List.isEmpty_iff]
  · simp [pages_requested, hs]

/-- C2.  For every page sequence terminated by an empty page or an absent
next link (all earlier pages being non-empty 200 responses carrying a next
link), both paged fetchers — `fetch_pull_requests` for the pull-request list
and `fetch_pr_files` for a pull request's changed-file list — emit exactly
the concatenation of all pages' elements in page order with no error, issuing
exactly one request per page; and the loop requests page N+1 only if
page N was non-empty and carried a next-link signal: a page with an empty
array or without the signal ends the requests at once. -/
theorem fetch_pagination_exact
    (goodP : List (ApiResponse PullRequest)) (lastP : ApiResponse PullRequest)
    (goodF : List (ApiResponse ChangedFile)) (lastF : ApiResponse ChangedFile)
    (hgP : ∀ r ∈ goodP, r.status = 200 ∧ r.items ≠ [] ∧ r.hasNext = true)
    (hlP : lastP.status = 200) (htP : lastP.items = [] ∨ lastP.hasNext = false)
    (hgF : ∀ r ∈ goodF, r.status = 200 ∧ r.items ≠ [] ∧ r.hasNext = true)
    (hlF : lastF.status = 200) (htF : lastF.items = [] ∨ lastF.hasNext = false) :
    fetch_pull_requests (goodP ++ [lastP]) = (pagesItems (goodP ++ [lastP]), none)
    ∧ pages_requested (goodP ++ [lastP]) = goodP.length + 1
    ∧ fetch_pr_files (goodF ++ [lastF]) = (pagesItems (goodF ++ [lastF]), none)
    ∧ pages_requested (goodF ++ [lastF]) = goodF.length + 1
    ∧ (∀ (r : ApiResponse PullRequest) (rest : List (ApiResponse PullRequest)),
        r.items = [] ∨ r.hasNext = false → pages_requested (r :: rest) = 1)
    ∧ (∀ (r : ApiResponse ChangedFile) (rest : List (ApiResponse ChangedFile)),
        r.items = [] ∨ r.hasNext = false → pages_requested (r :: rest) = 1) := by
  have hp := fetch_paged_terminal goodP lastP hgP hlP htP
  have hf := fetch_paged_terminal goodF lastF hgF hlF htF
  exact ⟨hp.1, hp.2, hf.1, hf.2,
    fun r rest h => pages_requested_stop r rest h,
    fun r rest h => pages_requested_stop r rest h⟩

/-- Witness for C2: a two-page pull-request sequence terminated by an empty
page and a two-page file sequence terminated by a page without a next link,
evaluated concretely. -/
theorem fetch_pagination_exact_witness :
    fetch_pull_requests
        [⟨200, "ok", [⟨7, "u7", 5⟩], true⟩, ⟨200, "ok", [], false⟩]
      = ([⟨7, "u7", 5⟩], none)
    ∧ pages_requested
        (α := PullRequest) [⟨200, "ok", [⟨7, "u7", 5⟩], true⟩, ⟨200, "ok", [], false⟩] = 2
    ∧ fetch_pr_files
        [⟨200, "ok", [⟨"a.py"⟩], true⟩, ⟨200, "ok", [⟨"b.py"⟩], false⟩]
      = ([⟨"a.py"⟩, ⟨"b.py"⟩], none)
    ∧ pages_requested
        (α := ChangedFile) [⟨200, "ok", [⟨"a.py"⟩], true⟩, ⟨200, "ok", [⟨"b.py"⟩], false⟩] = 2 := by
  have h := fetch_pagination_exact
    [⟨200, "ok", [⟨7, "u7", 5⟩], true⟩] ⟨200, "ok", [], false⟩
    [⟨200, "ok", [⟨"a.py"⟩], true⟩] ⟨200, "ok", [⟨"b.py"⟩], false⟩
    (by decide) rfl (Or.inl rfl) (by decide) rfl (Or.inr rfl)
  exact ⟨h.1, h.2.1, h.2.2.1, h.2.2.2.1⟩

/-! ### Lemmas about the date-range filter -/

theorem date_filter_stream_eq_filter (startDate endDate : Nat) :
    ∀ prs : List PullRequest,
      prs.Pairwise (fun a b => b.created_at ≤ a.created_at) →
      (date_filter_stream true startDate endDate prs).1 =
        prs.filter (fun pr => decide (startDate ≤ pr.created_at) && decide (pr.created_at ≤ endDate))
  | [], _ => by simp [date_filter_stream]
  | pr :: rest, hs => by
    rw [List.pairwise_cons] at hs
    obtain ⟨hhead, htail⟩ := hs
    have ih := date_filter_stream_eq_filter startDate endDate rest htail
    by_cases h1 : endDate < pr.created_at
    · have : ¬ pr.created_at ≤ endDate := by omega
      simp [date_filter_stream, h1, ih, List.filter_cons, this]
    · by_cases h2 : pr.created_at < startDate
      · have hnil : rest.filter
            (fun pr => decide (startDate ≤ pr.created_at) && decide (pr.created_at ≤ endDate))
            = [] := by
          rw [List.filter_eq_nil_iff]
          intro a ha
          have := hhead a ha
          simp
          omega
        have : ¬ startDate ≤ pr.created_at := by omega
        simp [date_filter_stream, h1, h2, List.filter_cons, this, hnil]
      · have ha : startDate ≤ pr.created_at := by omega
        have hb : pr.created_at ≤ endDate := by omega
        simp [date_filter_stream, h1, h2, List.filter_cons, ha, hb, ih]

theorem examined_prs_eq (startDate : Nat) :
    ∀ prs : List PullRequest,
      examined_prs true startDate prs =
        prs.takeWhile (fun pr => decide (startDate ≤ pr.created_at))
        ++ (prs.dropWhile (fun pr => decide (startDate ≤ pr.created_at))).take 1
  | [] => by simp [examined_prs]
  | pr :: rest => by
    by_cases h : pr.created_at < startDate
    · have : ¬ startDate ≤ pr.created_at := by omega
      simp [examined_prs, h, List.takeWhile_cons, List.dropWhile_cons, this]
    · have ha : startDate ≤ pr.created_at := by omega
      have ih := examined_prs_eq startDate rest
      simp [examined_prs, h, List.takeWhile_cons, List.dropWhile_cons, ha, ih]

/-- C1.  With date filtering enabled, over a stream of pull requests sorted
descending by creation date and startDate ≤ endDate: the pull requests
dispatched for file checking are exactly the subsequence whose creation date
satisfies startDate ≤ createdAt ≤ endDate, and the loop examines exactly the
stream elements up to and including the first whose createdAt < startDate —
the elements after that boundary are never examined (the break at line 179
stops the entire enumeration). -/
theorem date_filter_range_and_halt (startDate endDate : Nat) (prs : List PullRequest)
    (hrange : startDate ≤ endDate)
    (hsorted : prs.Pairwise (fun a b => b.created_at ≤ a.created_at)) :
    (date_filter_stream true startDate endDate prs).1 =
      prs.filter (fun pr => decide (startDate ≤ pr.created_at) && decide (pr.created_at ≤ endDate))
    ∧ examined_prs true startDate prs =
        prs.takeWhile (fun pr => decide (startDate ≤ pr.created_at))
        ++ (prs.dropWhile (fun pr => decide (startDate ≤ pr.created_at))).take 1 :=
  ⟨date_filter_stream_eq_filter startDate endDate prs hsorted, examined_prs_eq startDate prs⟩

/-- Witness for C1: a five-element descending stream with range 10..20; the
dispatched subsequence is the two in-range pull requests, and exactly the
first four elements are examined (the fifth lies past the break). -/
theorem date_filter_range_and_halt_witness :
    (date_filter_stream true 10 20
        [⟨1, "a", 25⟩, ⟨2, "b", 20⟩, ⟨3, "c", 15⟩, ⟨4, "d", 9⟩, ⟨5, "e", 8⟩]).1
      = [⟨2, "b", 20⟩, ⟨3, "c", 15⟩]
    ∧ examined_prs true 10
        [⟨1, "a", 25⟩, ⟨2, "b", 20⟩, ⟨3, "c", 15⟩, ⟨4, "d", 9⟩, ⟨5, "e", 8⟩]
      = [⟨1, "a", 25⟩, ⟨2, "b", 20⟩, ⟨3, "c", 15⟩, ⟨4, "d", 9⟩] := by
  have h := date_filter_range_and_halt 10 20
    [⟨1, "a", 25⟩, ⟨2, "b", 20⟩, ⟨3, "c", 15⟩, ⟨4, "d", 9⟩, ⟨5, "e", 8⟩]
    (by decide) (by decide)
  exact ⟨h.1.trans (by decide), h.2.trans (by decide)⟩

/-! ### The coordinator collects failures without halting -/

/-- C3.  For every run: with N dispatched per-pull-request file checks of
which those whose `read_files` raises a `FetchError` fail (K of them), the
collection loop reports exactly those K errors in order, every check that
found the target contributes its URL to the matched list (a failing check
never matches, since the error is raised before any match could occur after
it), and the pull-requests-searched counter grows by exactly N regardless of
K — a failure halts neither the other checks nor the counter. -/
theorem run_file_checks_partial_failure (target : String)
    (filesOf : Nat → List (ApiResponse ChangedFile)) :
    ∀ (jobs : List PullRequest) (st0 : RunState),
      (run_file_checks target filesOf st0 jobs).1.pull_requests_searched
        = st0.pull_requests_searched + jobs.length
      ∧ (run_file_checks target filesOf st0 jobs).2
        = jobs.filterMap (fun pr => (read_files_run target (filesOf pr.number)).error)
      ∧ (run_file_checks target filesOf st0 jobs).1.pull_requests_with_file
        = st0.pull_requests_with_file
          ++ jobs.filterMap (fun pr =>
              if (read_files_run target (filesOf pr.number)).matched = true
              then some pr.html_url else none)
  | [], st0 => by simp [run_file_checks]
  | pr :: rest, st0 => by
    have ih := run_file_checks_partial_failure target filesOf rest
    simp only [run_file_checks, read_files, List.length_cons]
    refine ⟨?_, ?_, ?_⟩
    · rw [(ih _).1]
      simp
      omega
    · rw [(ih _).2.1]
      cases he : (read_files_run target (filesOf pr.number)).error <;>
        simp [List.filterMap_cons, he]
    · rw [(ih _).2.2]
      cases hm : (read_files_run target (filesOf pr.number)).matched <;>
        simp [List.filterMap_cons, hm, List.append_assoc]

/-! ### The unsynchronized shared counters -/

/-- C4 (code bug).  The workers mutate the shared counters with plain
`self.files_searched += 1` and no lock, so an interleaving of two concurrent
file-check invocations CAN lose an update: in the schedule where worker A
loads the counter, worker B loads it too, then both store, both increments
complete (both program counters reach 2) yet the counter ends at 1, not at
the 2 increments performed — refuting the lost-update-freedom the claim
asserts of the code. -/
theorem files_searched_increment_race_loses_update :
    (runSchedule [true, false, true, false] ⟨0, 0, 0, 0, 0⟩).pcA = 2
    ∧ (runSchedule [true, false, true, false] ⟨0, 0, 0, 0, 0⟩).pcB = 2
    ∧ (runSchedule [true, false, true, false] ⟨0, 0, 0, 0, 0⟩).files_searched = 1
    ∧ (runSchedule [true, false, true, false] ⟨0, 0, 0, 0, 0⟩).files_searched ≠ 2 := by
  decide

/-! ### Error handling while paging -/

theorem fetch_paged_status_semantics {α : Type} :
    ∀ resps : List (ApiResponse α),
      ((∀ r ∈ resps, r.status = 200) → (fetch_paged resps).2 = none)
      ∧ (∀ e, (fetch_paged resps).2 = some e →
          e.status ≠ 200 ∧ ∃ r ∈ resps, r.status = e.status ∧ r.body = e.body)
  | [] => by simp [fetch_paged]
  | r :: rest => by
    have ih := fetch_paged_status_semantics rest
    by_cases hs : r.status = 200
    · by_cases he : r.items.isEmpty
      · simp [fetch_paged, hs, he]
      · by_cases hn : r.hasNext
        · refine ⟨fun hall => ?_, fun e hsome => ?_⟩
          · simp [fetch_paged, hs, he, hn]
            exact ih.1 (fun x hx => hall x (List.mem_cons_of_mem _ hx))
          · simp [fetch_paged, hs, he, hn] at hsome
            obtain ⟨hne, rr, hrr, h1, h2⟩ := ih.2 e hsome
            exact ⟨hne, rr, List.mem_cons_of_mem _ hrr, h1, h2⟩
        · simp [fetch_paged, hs, he, hn]
    · refine ⟨fun hall => absurd (hall r (List.mem_cons_self _ _)) hs, fun e hsome => ?_⟩
      simp [fetch_paged, hs] at hsome
      subst hsome
      exact ⟨hs, r, List.mem_cons_self _ _, rfl, rfl⟩

/-- Counterexample for C5: the HTTP status 201 Created is a 2xx success
status, yet the fetcher aborts on it with a `FetchError` — the code tests
`response.status_code != 200` (line 129), not membership in the 2xx class,
so the claim "aborts exactly when the status is not a 2xx success status" is
false on this response. -/
theorem fetch_abort_on_2xx_cex :
    200 ≤ 201 ∧ 201 < 300
    ∧ (fetch_pull_requests [⟨201, "Created", [⟨1, "u1", 3⟩], false⟩]).2
        = some ⟨201, "Created"⟩
    ∧ (fetch_pr_files [⟨201, "Created", [⟨"a.py"⟩], false⟩]).2
        = some ⟨201, "Created"⟩ := by
  decide

/-- C5 (amended).  For every HTTP response received while paging, both
fetchers abort with an error carrying the exact status code and raw body of
the offending response precisely when its status is not 200 — the abort is
immediate (the page of the non-200 response is the last one requested, so
there is no retry) — and a sequence consisting solely of status-200
responses is processed normally, i.e. without error. -/
theorem fetch_abort_iff_status_not_200
    (resps : List (ApiResponse PullRequest)) (respsF : List (ApiResponse ChangedFile)) :
    ((∀ r ∈ resps, r.status = 200) → (fetch_pull_requests resps).2 = none)
    ∧ (∀ e, (fetch_pull_requests resps).2 = some e →
        e.status ≠ 200 ∧ ∃ r ∈ resps, r.status = e.status ∧ r.body = e.body)
    ∧ (∀ (r : ApiResponse PullRequest) (rest : List (ApiResponse PullRequest)),
        r.status ≠ 200 →
          fetch_pull_requests (r :: rest) = ([], some ⟨r.status, r.body⟩)
          ∧ pages_requested (r :: rest) = 1)
    ∧ ((∀ r ∈ respsF, r.status = 200) → (fetch_pr_files respsF).2 = none)
    ∧ (∀ e, (fetch_pr_files respsF).2 = some e →
        e.status ≠ 200 ∧ ∃ r ∈ respsF, r.status = e.status ∧ r.body = e.body)
    ∧ (∀ (r : ApiResponse ChangedFile) (rest : List (ApiResponse ChangedFile)),
        r.status ≠ 200 →
          fetch_pr_files (r :: rest) = ([], some ⟨r.status, r.body⟩)
          ∧ pages_requested (r :: rest) = 1) := by
  refine ⟨(fetch_paged_status_semantics resps).1, (fetch_paged_status_semantics resps).2,
    fun r rest hr => ?_, (fetch_paged_status_semantics respsF).1,
    (fetch_paged_status_semantics respsF).2, fun r rest hr => ?_⟩
  · exact ⟨by simp [fetch_pull_requests, fetch_paged, hr], by simp [pages_requested, hr]⟩
  · exact ⟨by simp [fetch_pr_files, fetch_paged, hr], by simp [pages_requested, hr]⟩

/-- Witness for C5 (amended): a 500 on the second pull-request page aborts
with its status and body after two requests; an all-200 file sequence
processes without error; a 403 on the first file page aborts at once. -/
theorem fetch_abort_iff_status_not_200_witness :
    (fetch_pull_requests [⟨200, "ok", [⟨1, "u1", 3⟩], true⟩, ⟨500, "boom", [], true⟩]).2
      = some ⟨500, "boom"⟩
    ∧ (fetch_pr_files [⟨200, "ok", [⟨"a.py"⟩], false⟩]).2 = none
    ∧ fetch_pr_files [⟨403, "rate limited", [], true⟩] = ([], some ⟨403, "rate limited"⟩)
    ∧ pages_requested (α := ChangedFile) [⟨403, "rate limited", [], true⟩] = 1 := by
  have h := fetch_abort_iff_status_not_200
    [⟨200, "ok", [⟨1, "u1", 3⟩], true⟩, ⟨500, "boom", [], true⟩]
    [⟨200, "ok", [⟨"a.py"⟩], false⟩]
  have h500 : (fetch_pull_requests
      [⟨200, "ok", [⟨1, "u1", 3⟩], true⟩, ⟨500, "boom", [], true⟩]).2 = some ⟨500, "boom"⟩ := by
    decide
  have hf := h.2.2.2.2.2 ⟨403, "rate limited", [], true⟩ [] (by decide)
  exact ⟨h500, h.2.2.2.1 (by decide), hf.1, hf.2⟩

/-! ### The file-match checker -/

theorem scanFiles_matched_iff (target : String) :
    ∀ fs : List ChangedFile,
      ((scanFiles target fs).2 = true ↔ (⟨target⟩ : ChangedFile) ∈ fs)
  | [] => by simp [scanFiles]
  | f :: fs => by
    have ih := scanFiles_matched_iff target fs
    by_cases h : f.filename = target
    · have : f = ⟨target⟩ := by cases f; simpa using h
      simp [scanFiles, h, this]
    · have hne : f ≠ ⟨target⟩ := by
        intro he
        exact h (by rw [he])
      simp [scanFiles, h, ih, List.mem_cons, hne, Ne.symm hne]

theorem read_files_run_matched_iff (target : String) :
    ∀ pages : List (ApiResponse ChangedFile),
      (∀ r ∈ pages, r.status = 200) →
      ((read_files_run target pages).matched = true
        ↔ (⟨target⟩ : ChangedFile) ∈ (fetch_pr_files pages).1)
  | [], _ => by simp [read_files_run, fetch_pr_files, fetch_paged]
  | r :: rest, hall => by
    have hs := hall r (List.mem_cons_self _ _)
    have ih := read_files_run_matched_iff target rest
      (fun x hx => hall x (List.mem_cons_of_mem _ hx))
    by_cases he : r.items.isEmpty
    · simp [read_files_run, fetch_pr_files, fetch_paged, hs, he]
    · by_cases hm : (scanFiles target r.items).2 = true
      · have hmem := (scanFiles_matched_iff target r.items).mp hm
        by_cases hn : r.hasNext <;>
          simp [read_files_run, fetch_pr_files, fetch_paged, hs, he, hm, hn, hmem]
      · have hmem : (⟨target⟩ : ChangedFile) ∉ r.items := fun hc =>
          hm ((scanFiles_matched_iff target r.items).mpr hc)
        by_cases hn : r.hasNext
        · simpa [read_files_run, fetch_pr_files, fetch_paged, hs, he, hm, hn, hmem] using ih
        · simp [read_files_run, fetch_pr_files, fetch_paged, hs, he, hm, hn, hmem]

theorem read_files_run_requests (target : String) :
    ∀ (a : List (ApiResponse ChangedFile)) (p : ApiResponse ChangedFile)
      (b : List (ApiResponse ChangedFile)),
      (∀ r ∈ a, r.status = 200 ∧ r.items ≠ [] ∧ r.hasNext = true
        ∧ (⟨target⟩ : ChangedFile) ∉ r.items) →
      p.status = 200 → (⟨target⟩ : ChangedFile) ∈ p.items →
      (read_files_run target (a ++ p :: b)).requests = a.length + 1
      ∧ (read_files_run target (a ++ p :: b)).matched = true
  | [], p, b => by
    intro _ hp hmem
    have hm : (scanFiles target p.items).2 = true := (scanFiles_matched_iff target p.items).mpr hmem
    have hne : ¬ p.items.isEmpty := by
      simp [List.isEmpty_iff]
      intro hnil
      rw [hnil] at hmem
      simp at hmem
    simp [read_files_run, hp, hne, hm]
  | r :: a, p, b => by
    intro ha hp hmem
    obtain ⟨hs, hne, hnx, hnm⟩ := ha r (List.mem_cons_self _ _)
    have ih := read_files_run_requests target a p b
      (fun x hx => ha x (List.mem_cons_of_mem _ hx)) hp hmem
    have hm : (scanFiles target r.items).2 ≠ true := fun hc =>
      hnm ((scanFiles_matched_iff target r.items).mp hc)
    simp [read_files_run, hs, hnx, hm, List.isEmpty_iff, hne, ih.1, ih.2]
    omega

/-- C6.  The file-match checker compares each changed filename to the target
by exact, case-sensitive string equality on the full path: with all pages
well-formed, a match is found exactly when the target path occurs among the
emitted files; on a match the invocation appends that pull request's URL
exactly once, on exhaustion with no match nothing is appended; and when the
first occurrence of the target lies on page `a.length + 1` the checker
issues exactly `a.length + 1` page requests — the match breaks the loop, so
no later file page is ever requested.  Capitalization or a differing
directory prefix defeats the match (last two conjuncts). -/
theorem read_files_exact_match (target url : String)
    (pages : List (ApiResponse ChangedFile)) (st : RunState) :
    ((∀ r ∈ pages, r.status = 200) →
      ((read_files_run target pages).matched = true
        ↔ (⟨target⟩ : ChangedFile) ∈ (fetch_pr_files pages).1))
    ∧ ((read_files_run target pages).matched = true →
        (read_files target pages url st).1.pull_requests_with_file
          = st.pull_requests_with_file ++ [url])
    ∧ ((read_files_run target pages).matched = false →
        (read_files target pages url st).1.pull_requests_with_file
          = st.pull_requests_with_file)
    ∧ (∀ (a : List (ApiResponse ChangedFile)) (p : ApiResponse ChangedFile)
        (b : List (ApiResponse ChangedFile)),
        pages = a ++ p :: b →
        (∀ r ∈ a, r.status = 200 ∧ r.items ≠ [] ∧ r.hasNext = true
          ∧ (⟨target⟩ : ChangedFile) ∉ r.items) →
        p.status = 200 → (⟨target⟩ : ChangedFile) ∈ p.items →
        (read_files_run target pages).requests = a.length + 1)
    ∧ (read_files_run "a.py" [⟨200, "ok", [⟨"A.py"⟩], false⟩]).matched = false
    ∧ (read_files_run "a.py" [⟨200, "ok", [⟨"src/a.py"⟩], false⟩]).matched = false := by
  refine ⟨read_files_run_matched_iff target pages, fun hm => ?_, fun hm => ?_,
    fun a p b hdec ha hp hmem => ?_, by decide, by decide⟩
  · simp [read_files, hm]
  · simp [read_files, hm]
  · rw [hdec]
    exact (read_files_run_requests target a p b ha hp hmem).1

/-- Witness for C6: the target sits on page 2 of 3 and the third page (which
would have answered 500) is never requested; the URL is appended once. -/
theorem read_files_exact_match_witness :
    (read_files_run "t.py"
        [⟨200, "ok", [⟨"x"⟩], true⟩, ⟨200, "ok", [⟨"t.py"⟩], true⟩, ⟨500, "boom", [], true⟩]).requests
      = 2
    ∧ (read_files "t.py"
        [⟨200, "ok", [⟨"x"⟩], true⟩, ⟨200, "ok", [⟨"t.py"⟩], true⟩, ⟨500, "boom", [], true⟩]
        "u7" initState).1.pull_requests_with_file
      = ["u7"] := by
  have h := read_files_exact_match "t.py" "u7"
    [⟨200, "ok", [⟨"x"⟩], true⟩, ⟨200, "ok", [⟨"t.py"⟩], true⟩, ⟨500, "boom", [], true⟩]
    initState
  have hreq := h.2.2.2.1 [⟨200, "ok", [⟨"x"⟩], true⟩] ⟨200, "ok", [⟨"t.py"⟩], true⟩
    [⟨500, "boom", [], true⟩] rfl (by decide) rfl (by decide)
  exact ⟨hreq, (h.2.1 (by decide)).trans (by decide)⟩

/-! ### A fatal error while enumerating pull requests -/

theorem fetch_paged_error_prefix {α : Type} :
    ∀ (good : List (ApiResponse α)) (bad : ApiResponse α) (rest : List (ApiResponse α)),
      (∀ r ∈ good, r.status = 200 ∧ r.items ≠ [] ∧ r.hasNext = true) →
      bad.status ≠ 200 →
      fetch_paged (good ++ bad :: rest) = (pagesItems good, some ⟨bad.status, bad.body⟩)
  | [], bad, rest => by
    intro _ hbad
    simp [fetch_paged, pagesItems, hbad]
  | g :: gs, bad, rest => by
    intro hg hbad
    obtain ⟨hs, hne, hnx⟩ := hg g (List.mem_cons_self _ _)
    have ih := fetch_paged_error_prefix gs bad rest
      (fun x hx => hg x (List.mem_cons_of_mem _ hx)) hbad
    simp [fetch_paged, pagesItems, hs, hnx, List.isEmpty_iff, hne, ih]

/-- C7.  When a `FetchError` is raised during pull-request-list enumeration
(a non-200 page after a prefix of well-formed pages, with the date filter not
having broken off earlier), the run aborts as fatal: the enumeration yields
only the pull requests of the pages before the error, the error surfaces as
the fatal outcome carrying that page's status and body, the dispatched
file-check work is exactly what was dispatched from the pre-error prefix (no
new work after the error), and the future-collection loop is never reached
(nothing is reported from it). -/
theorem enumeration_error_aborts_run (dateFiltering : Bool) (startDate endDate : Nat)
    (target : String) (filesOf : Nat → List (ApiResponse ChangedFile)) (st0 : RunState)
    (good : List (ApiResponse PullRequest)) (bad : ApiResponse PullRequest)
    (rest : List (ApiResponse PullRequest))
    (hg : ∀ r ∈ good, r.status = 200 ∧ r.items ≠ [] ∧ r.hasNext = true)
    (hbad : bad.status ≠ 200)
    (hnohalt : (date_filter_stream dateFiltering startDate endDate (pagesItems good)).2 = false) :
    (fetch_pull_requests (good ++ bad :: rest)).1 = pagesItems good
    ∧ (process_pull_requests dateFiltering startDate endDate target filesOf st0
        (good ++ bad :: rest)).fatal = some ⟨bad.status, bad.body⟩
    ∧ (process_pull_requests dateFiltering startDate endDate target filesOf st0
        (good ++ bad :: rest)).dispatched
      = (date_filter_stream dateFiltering startDate endDate (pagesItems good)).1
    ∧ (process_pull_requests dateFiltering startDate endDate target filesOf st0
        (good ++ bad :: rest)).reported = [] := by
  have hf := fetch_paged_error_prefix good bad rest hg hbad
  refine ⟨?_, ?_, ?_, ?_⟩ <;>
    simp [process_pull_requests, fetch_pull_requests, hf, hnohalt]

/-- Witness for C7: one good page, then a 500; a further page exists but is
never enumerated, the one in-range pull request of page 1 is the only
dispatched work, and nothing is reported by the collection loop. -/
theorem enumeration_error_aborts_run_witness :
    (fetch_pull_requests
        [⟨200, "ok", [⟨1, "u1", 15⟩], true⟩, ⟨500, "boom", [], true⟩,
         ⟨200, "ok", [⟨9, "u9", 1⟩], false⟩]).1 = [⟨1, "u1", 15⟩]
    ∧ (process_pull_requests true 10 20 "t.py" (fun _ => [⟨200, "ok", [⟨"t.py"⟩], false⟩])
        initState
        [⟨200, "ok", [⟨1, "u1", 15⟩], true⟩, ⟨500, "boom", [], true⟩,
         ⟨200, "ok", [⟨9, "u9", 1⟩], false⟩]).fatal = some ⟨500, "boom"⟩
    ∧ (process_pull_requests true 10 20 "t.py" (fun _ => [⟨200, "ok", [⟨"t.py"⟩], false⟩])
        initState
        [⟨200, "ok", [⟨1, "u1", 15⟩], true⟩, ⟨500, "boom", [], true⟩,
         ⟨200, "ok", [⟨9, "u9", 1⟩], false⟩]).dispatched = [⟨1, "u1", 15⟩]
    ∧ (process_pull_requests true 10 20 "t.py" (fun _ => [⟨200, "ok", [⟨"t.py"⟩], false⟩])
        initState
        [⟨200, "ok", [⟨1, "u1", 15⟩], true⟩, ⟨500, "boom", [], true⟩,
         ⟨200, "ok", [⟨9, "u9", 1⟩], false⟩]).reported = [] := by
  have h := enumeration_error_aborts_run true 10 20 "t.py"
    (fun _ => [⟨200, "ok", [⟨"t.py"⟩], false⟩]) initState
    [⟨200, "ok", [⟨1, "u1", 15⟩], true⟩] ⟨500, "boom", [], true⟩
    [⟨200, "ok", [⟨9, "u9", 1⟩], false⟩]
    (by decide) (by decide) (by decide)
  exact ⟨h.1.trans (by decide), h.2.1, h.2.2.1.trans (by decide), h.2.2.2⟩

/-! ### The result reporter -/

/-- C8.  For every finished run: the reporter prints the no-matches line
exactly when the matched-URL list is empty, otherwise a header followed by
every matched URL in the order recorded; and in both cases the final summary
line reporting the pull-requests-searched and files-searched counters is
printed. -/
theorem display_results_report (target : String) (st : RunState) :
    (st.pull_requests_with_file = [] →
      display_results target st =
        ["No pull requests found that modified " ++ target,
         "Searched " ++ toString st.pull_requests_searched ++ " pull requests and "
           ++ toString st.files_searched ++ " files."])
    ∧ (st.pull_requests_with_file ≠ [] →
      display_results target st =
        ("Pull requests that modified " ++ target ++ ":") :: st.pull_requests_with_file
        ++ ["Searched " ++ toString st.pull_requests_searched ++ " pull requests and "
            ++ toString st.files_searched ++ " files."])
    ∧ ("Searched " ++ toString st.pull_requests_searched ++ " pull requests and "
        ++ toString st.files_searched ++ " files.") ∈ display_results target st := by
  refine ⟨fun h => ?_, fun h => ?_, ?_⟩
  · simp [display_results, h]
  · simp [display_results, List.isEmpty_iff, h]
  · by_cases h : st.pull_requests_with_file = [] <;>
      simp [display_results, List.isEmpty_iff, h]

/-- Witness for C8: an empty and a two-match state, printed concretely. -/
theorem display_results_report_witness :
    display_results "f.py" ⟨[], 3, 7⟩
      = ["No pull requests found that modified f.py",
         "Searched 3 pull requests and 7 files."]
    ∧ display_results "f.py" ⟨["u1", "u2"], 3, 7⟩
      = ["Pull requests that modified f.py:", "u1", "u2",
         "Searched 3 pull requests and 7 files."] := by
  have h1 := (display_results_report "f.py" ⟨[], 3, 7⟩).1 rfl
  have h2 := (display_results_report "f.py" ⟨["u1", "u2"], 3, 7⟩).2.1 (by decide)
  exact ⟨h1.trans (by decide), h2.trans (by decide)⟩

/-! ### Date parsing at midnight -/

/-- C9.  `strptime` with format `%m-%d-%y` yields the given day at midnight
(all time fields zero), and pull requests are compared against these exact
timestamps: a pull request created on the end date at any time strictly after
00:00:00 compares strictly greater than the parsed end date and is therefore
skipped by the filter (the `continue` at line 174). -/
theorem end_date_midnight_skips_later_same_day (m d y h mi s startKey : Nat)
    (hpos : 0 < h * 3600 + mi * 60 + s) :
    (strptime_mdy m d y).hour = 0 ∧ (strptime_mdy m d y).minute = 0
    ∧ (strptime_mdy m d y).second = 0
    ∧ dtKey (strptime_mdy m d y) < dtKey (strptime_iso (year_from_two_digit y) m d h mi s)
    ∧ ∀ (num : Nat) (url : String) (rest : List PullRequest),
        date_filter_stream true startKey (dtKey (strptime_mdy m d y))
          (⟨num, url, dtKey (strptime_iso (year_from_two_digit y) m d h mi s)⟩ :: rest)
        = date_filter_stream true startKey (dtKey (strptime_mdy m d y)) rest := by
  have key : dtKey (strptime_iso (year_from_two_digit y) m d h mi s)
      = dtKey (strptime_mdy m d y) + (h * 3600 + mi * 60 + s) := by
    simp [dtKey, strptime_mdy, strptime_iso]
    ring
  have hgt : dtKey (strptime_mdy m d y)
      < dtKey (strptime_iso (year_from_two_digit y) m d h mi s) := by omega
  refine ⟨rfl, rfl, rfl, hgt, fun num url rest => ?_⟩
  simp [date_filter_stream, hgt]

/-- Witness for C9: end date 01-31-24; a pull request created 2024-01-31 at
00:00:01 is skipped and nothing is dispatched. -/
theorem end_date_midnight_skips_later_same_day_witness :
    dtKey (strptime_mdy 1 31 24) < dtKey (strptime_iso 2024 1 31 0 0 1)
    ∧ date_filter_stream true 0 (dtKey (strptime_mdy 1 31 24))
        [⟨7, "u", dtKey (strptime_iso 2024 1 31 0 0 1)⟩] = ([], false) := by
  have h := end_date_midnight_skips_later_same_day 1 31 24 0 0 1 0 (by decide)
  refine ⟨h.2.2.2.1, ?_⟩
  have h5 := h.2.2.2.2 7 "u" []
  exact h5.trans (by decide)

/-! ### Skipped and cut-off pull requests leave the state untouched -/

/-- C10.  A pull request skipped by the date filter (createdAt newer than
endDate) leaves the run exactly as if it were absent from the stream: the
dispatched list, hence every counter and the matched-URL list, is identical;
and at a pull request older than startDate the stream contributes no
dispatched work at all, so the shared state is left exactly as it stood — in
neither case is a file fetch dispatched for such a pull request. -/
theorem date_filter_frame_no_dispatch (startDate endDate : Nat) (pr : PullRequest)
    (rest : List PullRequest) (target : String)
    (filesOf : Nat → List (ApiResponse ChangedFile))
    (hrange : startDate ≤ endDate) :
    (endDate < pr.created_at →
      date_filter_stream true startDate endDate (pr :: rest)
        = date_filter_stream true startDate endDate rest
      ∧ ∀ st : RunState,
          run_file_checks target filesOf st
              (date_filter_stream true startDate endDate (pr :: rest)).1
            = run_file_checks target filesOf st
              (date_filter_stream true startDate endDate rest).1)
    ∧ (pr.created_at < startDate →
      (date_filter_stream true startDate endDate (pr :: rest)).1 = []
      ∧ ∀ st : RunState,
          run_file_checks target filesOf st
              (date_filter_stream true startDate endDate (pr :: rest)).1
            = (st, [])) := by
  constructor
  · intro h
    have heq : date_filter_stream true startDate endDate (pr :: rest)
        = date_filter_stream true startDate endDate rest := by
      simp [date_filter_stream, h]
    exact ⟨heq, fun st => by rw [heq]⟩
  · intro h
    have hnot : ¬ endDate < pr.created_at := by omega
    have heq : date_filter_stream true startDate endDate (pr :: rest) = ([], true) := by
      simp [date_filter_stream, hnot, h]
    refine ⟨by rw [heq], fun st => ?_⟩
    rw [heq]
    simp [run_file_checks]

/-- Witness for C10: with range 10..20, a pull request dated 25 is skipped
with no effect, and one dated 5 cuts the stream off with the state returned
untouched. -/
theorem date_filter_frame_no_dispatch_witness :
    date_filter_stream true 10 20 [⟨1, "a", 25⟩, ⟨2, "b", 15⟩]
      = date_filter_stream true 10 20 [⟨2, "b", 15⟩]
    ∧ run_file_checks "t" (fun _ => []) initState
        (date_filter_stream true 10 20 [⟨4, "d", 5⟩, ⟨2, "b", 15⟩]).1 = (initState, []) := by
  have h1 := (date_filter_frame_no_dispatch 10 20 ⟨1, "a", 25⟩ [⟨2, "b", 15⟩] "t"
    (fun _ => []) (by decide)).1 (by decide)
  have h2 := (date_filter_frame_no_dispatch 10 20 ⟨4, "d", 5⟩ [⟨2, "b", 15⟩] "t"
    (fun _ => []) (by decide)).2 (by decide)
  exact ⟨h1.1, h2.2 initState⟩

end PRFileSearch
